import Mathlib

/-!
Verification development for the guild-membership verification bot
(per-guild revision of `index.js`, the variant with `assignset` multi-role
buttons, here cited as `part_000` lines 520-1517).

The embedding below translates the relevant JavaScript into Lean:
identifiers (guild ids, user ids, role ids, channel ids, message ids) are
`String`s; JavaScript `undefined` on an optional field is `Option.none`;
asynchronous platform calls are modelled as environment functions passed to
each handler, and each handler returns the list of network effects it emits
(console logging is not an effect).
-/

set_option autoImplicit false

/-! ## Verification button codec

The prompt builder writes `customId` strings
`assignset:<index>:<messageId>:<userId>` (part_000 line 1033),
`deny:<messageId>:<userId>` (line 1041) and `help:<memberId>` (line 859).
The click handler recovers the fields with `customId.split(':')`
(lines 1305, 1349-1394).
-/

/-- JavaScript `s.split(d)` for a one-character separator: `"" -> [""]`,
separators at the ends produce empty segments. -/
def splitOnChar (d : Char) : List Char → List (List Char)
  | [] => [[]]
  | c :: rest =>
    match splitOnChar d rest with
    | [] => [[]]
    | w :: ws => if c = d then [] :: w :: ws else (c :: w) :: ws

/-- `splitOnChar` lifted to `String`, the form the handlers use. -/
def splitChar (d : Char) (s : String) : List String :=
  (splitOnChar d s.data).map String.mk

/-- Decimal digit characters of a Nat, most significant first, with explicit
fuel so that the recursion is structural. Models the JavaScript template
interpolation of a nonnegative integer. -/
def natCharsAux : Nat → Nat → List Char
  | 0, _ => []
  | fuel + 1, n =>
    if n < 10 then [Nat.digitChar n]
    else natCharsAux fuel (n / 10) ++ [Nat.digitChar (n % 10)]

/-- Decimal representation of a Nat as a character list. -/
def natChars (n : Nat) : List Char := natCharsAux (n + 1) n

/-- Decimal representation of a Nat as a `String`. -/
def natStr (n : Nat) : String := String.mk (natChars n)

/-- Numeric value of a decimal digit character. -/
def charToDigit (c : Char) : Nat := c.toNat - ('0').toNat

/-- JavaScript `Number(s)` restricted to the digit strings the codec emits. -/
def parseNatChars (cs : List Char) : Nat :=
  cs.foldl (fun acc c => 10 * acc + charToDigit c) 0

/-- `parseNatChars` on a `String`. -/
def parseNatStr (s : String) : Nat := parseNatChars s.data

/-- JavaScript `s.startsWith(p)`, computed on the character lists. -/
def strStartsWith (s p : String) : Bool := p.data.isPrefixOf s.data

/-- `assignset:<index>:<messageId>:<userId>` (part_000 line 1033). -/
def encodeAssignset (index : Nat) (messageId userId : String) : String :=
  "assignset:" ++ natStr index ++ ":" ++ messageId ++ ":" ++ userId

/-- `deny:<messageId>:<userId>` (part_000 line 1041). -/
def encodeDeny (messageId userId : String) : String :=
  "deny:" ++ messageId ++ ":" ++ userId

/-- `help:<memberId>` (part_000 line 859). -/
def encodeHelp (userId : String) : String :=
  "help:" ++ userId

/-- The fields the click handler extracts from a button `customId`. -/
inductive DecodedButton where
  | assignset (index : Nat) (messageId userId : String)
  | deny (messageId userId : String)
  | help (userId : String)
  | other
  deriving DecidableEq

/-- Field extraction performed by the `InteractionCreate` handler: the
`help:` test at part_000 line 1305 takes `split(':')[1]`; other buttons go
through `parts = customId.split(':')` with `action = parts[0]` and
positional fields (lines 1349-1394). A position read past the end of
`parts` (JavaScript `undefined`) is modelled as the empty string. -/
def decodeCustomId (customId : String) : DecodedButton :=
  if strStartsWith customId ("help:") then
    .help ((splitChar ':' customId).getD 1 (""))
  else
    let parts := splitChar ':' customId
    match parts.getD 0 ("") with
    | "assignset" =>
        .assignset (parseNatStr (parts.getD 1 (""))) (parts.getD 2 (""))
          (parts.getD 3 (""))
    | "deny" => .deny (parts.getD 1 ("")) (parts.getD 2 (""))
    | _ => .other

/-! ## Settings store

`guildSettings` is a JSON object mapping guild id to a configuration object;
`updateGuildConfig` does `guildSettings[guildId] = { ...existing, ...partial }`
(part_000 lines 610-615). The store is modelled as a map from guild id to an
optional field map, and the object spread as a field-wise right-biased merge
(the partial records produced by the `/setup` subcommands carry only present
fields). -/

/-- A configuration object viewed as the untyped JSON record it is in the
store: a map from field name to optional field value. -/
def FieldMap : Type := String → Option String

/-- The `guildSettings` mapping. -/
def SettingsStore : Type := String → Option FieldMap

/-- JavaScript `{ ...existing, ...p }`: fields of `p` win. -/
def spreadMerge (existing p : FieldMap) : FieldMap :=
  fun f => (p f).orElse (fun _ => existing f)

/-- `getGuildConfig` (part_000 lines 606-608). -/
def getGuildConfigRaw (s : SettingsStore) (guildId : String) : Option FieldMap :=
  s guildId

/-- `updateGuildConfig` (part_000 lines 610-615): merge the partial record
into the existing record (or the empty record) and store it under the guild
key. Persistence (`saveSettings`) rewrites the whole file from this map and
does not change it. -/
def updateGuildConfig (s : SettingsStore) (guildId : String) (p : FieldMap) :
    SettingsStore :=
  fun g =>
    if g = guildId then
      some (spreadMerge ((s guildId).getD (fun _ => none)) p)
    else s g

/-! ## Welcome deduplicator

`welcomedJoinKey` is a `Map` keyed by the string `` `${guildId}:${userId}` ``
whose value is the join timestamp last welcomed (part_000 lines 797-798).
`maybePostWelcome` suppresses the post when the stored value equals the
current `member.joinedTimestamp` and records the timestamp after a
successful post (lines 843 and 893). -/

/-- The dedup map: welcome key to last welcomed join timestamp. -/
def WelcomeMap : Type := String → Option Nat

/-- `welcomeKey` (part_000 line 798). -/
def welcomeKey (guildId userId : String) : String := guildId ++ ":" ++ userId

/-- The guard at part_000 line 843: posting proceeds unless the recorded
timestamp for this (guild, user) equals the current join timestamp. -/
def shouldPost (m : WelcomeMap) (guildId userId : String) (t : Nat) : Bool :=
  if m (welcomeKey guildId userId) = some t then false else true

/-- The record step at part_000 line 893: `welcomedJoinKey.set(mapKey, joinKey)`. -/
def markPosted (m : WelcomeMap) (guildId userId : String) (t : Nat) : WelcomeMap :=
  fun k => if k = welcomeKey guildId userId then some t else m k

/-! ## Typed configuration and role-set resolution

The typed view of a guild configuration as the handlers read it
(fields documented at part_000 lines 560-579). -/

/-- One `verifyRoles` entry. Current entries carry `roleIds`; entries written
by an older revision carry a single `roleId`. An absent field is `none`. -/
structure VerifyEntry where
  roleIds : Option (List String)
  roleId : Option String
  label : Option String
  deriving DecidableEq

/-- A guild configuration record (part_000 lines 560-579). -/
structure GuildConfig where
  verificationChannelId : Option String := none
  staffChannelId : Option String := none
  roleAId : Option String := none
  roleBId : Option String := none
  notVerifiedRoleId : Option String := none
  modRoleId : Option String := none
  verifyRoles : Option (List VerifyEntry) := none
  welcomeTitle : Option String := none
  welcomeDescription : Option String := none
  welcomeMode : Option String := none
  deriving DecidableEq

/-- A role as read from `guild.roles.cache`. -/
structure Role where
  name : String
  position : Nat
  managed : Bool
  deriving DecidableEq

/-- The per-entry normalisation inside `getVerifyRoles` (part_000 lines
958-967): an entry with a non-empty `roleIds` array is rebuilt as
`{ roleIds, label }`; otherwise a legacy `roleId` entry is rebuilt as
`{ roleIds: [roleId], label }`; otherwise the entry passes through. -/
def normalizeVerifyEntry (vr : VerifyEntry) : VerifyEntry :=
  match vr.roleIds with
  | some ids =>
    if ids ≠ [] then ⟨some ids, none, vr.label⟩
    else
      match vr.roleId with
      | some rid => ⟨some [rid], none, vr.label⟩
      | none => vr
  | none =>
    match vr.roleId with
    | some rid => ⟨some [rid], none, vr.label⟩
    | none => vr

/-- The legacy fallback of `getVerifyRoles` (part_000 lines 970-986):
synthesize up to two single-role entries from `roleAId` / `roleBId`, in that
order, labelling each with the live role name when the role is in the cache. -/
def legacyFallback (config : GuildConfig) (roleCache : String → Option Role) :
    List VerifyEntry :=
  (match config.roleAId with
   | some a =>
     [⟨some [a], none,
       some (match roleCache a with
             | some r => "✅ Verify: " ++ r.name
             | none => "✅ Verify: Role A")⟩]
   | none => []) ++
  (match config.roleBId with
   | some b =>
     [⟨some [b], none,
       some (match roleCache b with
             | some r => "✅ Verify: " ++ r.name
             | none => "✅ Verify: Role B")⟩]
   | none => [])

/-- `getVerifyRoles` (part_000 lines 955-987). -/
def getVerifyRoles (config : GuildConfig) (roleCache : String → Option Role) :
    List VerifyEntry :=
  match config.verifyRoles with
  | some l => if l ≠ [] then l.map normalizeVerifyEntry else legacyFallback config roleCache
  | none => legacyFallback config roleCache

/-- The duplicate test of `/setup verifyrole_add` (part_000 lines 1228-1235):
an existing entry blocks the new `roleIds` when it has a `roleIds` array of
the same length every element of which occurs in the new list. -/
def duplicateExists (existing : List VerifyEntry) (newIds : List String) : Bool :=
  existing.any fun vr =>
    match vr.roleIds with
    | some ids => ids.length == newIds.length && ids.all (fun i => newIds.contains i)
    | none => false

/-! ## Event handlers

Each handler is a pure function from its environment (the values the
platform calls would return) to the list of network effects it emits, in
order. Console logging is not modelled. -/

/-- The pre-flight problems collected before a role grant
(part_000 lines 1432-1449), in source order per role. -/
inductive AssignIssue where
  | missingManageRoles
  | managedRole (roleId : String)
  | aboveOrEqualBot (roleId : String)
  deriving DecidableEq

/-- Contents of an ephemeral `interaction.reply`, tagged by which source
string is sent. -/
inductive Reply where
  | helpAck
  | notAllowed
  | userLeft
  | buttonNotConfigured
  | rolesGone
  | assignProblems (issues : List AssignIssue)
  deriving DecidableEq

/-- The result line appended when the prompt components are cleared. -/
inductive PromptNote where
  | assigned (roleIds : List String) (targetUserId byUserId : String)
  | denied (targetUserId byUserId : String)
  deriving DecidableEq

/-- A network side effect emitted by a handler. -/
inductive Effect where
  | reply (r : Reply)
  | staffHelpPing (modRoleId : Option String) (userId : String)
  | staffPrompt (customIds : List String)
  | addRoles (targetUserId : String) (roleIds : List String)
  | removeRole (targetUserId : String) (roleId : String)
  | clearPrompt (note : PromptNote)
  | dmTarget (userId : String)
  | deleteSubmission (messageId : String)
  | scheduleWelcomeCheck (memberId : String)
  deriving DecidableEq

/-- A fetched channel, with the two type tests the handlers apply and the
result of fetching a message by id from it. -/
structure Channel where
  isTextBased : Bool
  isGuildText : Bool
  hasMessage : String → Bool

/-- A fetched guild member, as far as the handlers inspect it. -/
structure TargetMember where
  hasRole : String → Bool

/-- An attachment, as far as `isImageAttachment` inspects it. -/
structure Attachment where
  contentType : Option String
  name : Option String

/-- Lower-casing by characters, for the case-insensitive extension test. -/
def strToLower (s : String) : String := String.mk (s.data.map Char.toLower)

/-- JavaScript `s.endsWith(p)` on the character lists. -/
def strEndsWith (s p : String) : Bool := p.data.isSuffixOf s.data

/-- `/\.(png|jpe?g|gif|webp)$/i.test(name)` (part_000 line 630). -/
def hasImageExtension (name : String) : Bool :=
  let l := strToLower name
  strEndsWith l (".png") || strEndsWith l (".jpg") || strEndsWith l (".jpeg") ||
    strEndsWith l (".gif") || strEndsWith l (".webp")

/-- `isImageAttachment` (part_000 lines 628-630). -/
def isImageAttachment (att : Attachment) : Bool :=
  (match att.contentType with
   | some ct => strStartsWith ct ("image/")
   | none => false) ||
  hasImageExtension (att.name.getD (""))

/-- `GuildMemberAdd` handler (part_000 lines 900-925): no configuration means
return; otherwise best-effort add of the not-verified role when it is set and
exists in the cache, then schedule the deferred welcome check. -/
def joinHandler (store : String → Option GuildConfig) (guildId memberId : String)
    (roleCache : String → Option Role) : List Effect :=
  match store guildId with
  | none => []
  | some config =>
    (match config.notVerifiedRoleId with
     | some nv =>
       match roleCache nv with
       | some _ => [.addRoles memberId [nv]]
       | none => []
     | none => []) ++ [.scheduleWelcomeCheck memberId]

/-- Environment of one `MessageCreate` event. -/
structure MessageEnv where
  guildId : Option String
  authorIsBot : Bool
  channelId : String
  messageId : String
  authorId : String
  attachments : List Attachment
  channels : String → Option Channel
  roleCache : String → Option Role

/-- The button `customId`s of the staff prompt (part_000 lines 1027-1044):
one `assignset` button per resolved role set, in order, then the deny
button. -/
def promptCustomIds (config : GuildConfig) (env : MessageEnv) : List String :=
  ((getVerifyRoles config env.roleCache).enum.map
    (fun p => encodeAssignset p.1 env.messageId env.authorId)) ++
    [encodeDeny env.messageId env.authorId]

/-- `MessageCreate` handler (part_000 lines 990-1061). -/
def messageHandler (store : String → Option GuildConfig) (env : MessageEnv) :
    List Effect :=
  match env.guildId with
  | none => []
  | some g =>
    if env.authorIsBot then []
    else
      match store g with
      | none => []
      | some config =>
        match config.verificationChannelId, config.staffChannelId with
        | some vc, some sc =>
          if env.channelId ≠ vc then []
          else if ¬ env.attachments.any isImageAttachment then []
          else
            match env.channels sc with
            | some ch => if ch.isGuildText then [.staffPrompt (promptCustomIds config env)] else []
            | none => []
        | _, _ => []

/-- Environment of one button `InteractionCreate` event. -/
structure ButtonEnv where
  roleCache : String → Option Role
  meHasManageRoles : Bool
  meHighestPosition : Nat
  clickerId : String
  clickerHasRole : String → Bool
  clickerHasManageRoles : Bool
  fetchMember : String → Option TargetMember
  channels : String → Option Channel

/-- The help branch (part_000 lines 1305-1333): notify the staff channel
when one is set, fetchable and text based, then always acknowledge the
clicking user ephemerally. -/
def helpBranch (config : GuildConfig) (env : ButtonEnv) (customId : String) :
    List Effect :=
  let userId := (splitChar ':' customId).getD 1 ("")
  (match config.staffChannelId with
   | some sid =>
     match env.channels sid with
     | some ch => if ch.isTextBased then [.staffHelpPing config.modRoleId userId] else []
     | none => []
   | none => []) ++ [.reply .helpAck]

/-- The moderator gate (part_000 lines 1336-1347): with `modRoleId` set, a
clicker holding neither the moderator role nor ManageRoles is turned away. -/
def modGateBlocks (config : GuildConfig) (env : ButtonEnv) : Bool :=
  match config.modRoleId with
  | some m => !(env.clickerHasRole m) && !env.clickerHasManageRoles
  | none => false

/-- `roleIdsToAssign.map(id => cache.get(id)).filter(Boolean)` (part_000
lines 1419-1421), keeping each role with the id it was looked up by. -/
def rolesFromCache (roleCache : String → Option Role) (ids : List String) :
    List (String × Role) :=
  ids.filterMap (fun i => (roleCache i).map (fun r => (i, r)))

/-- The pre-flight issue list (part_000 lines 1432-1449): a missing
ManageRoles permission first, then for each role in order a managed-role
issue and an above-or-equal-position issue as applicable. -/
def assignIssues (meHasManageRoles : Bool) (meHighestPosition : Nat)
    (rolesToAdd : List (String × Role)) : List AssignIssue :=
  (if meHasManageRoles then [] else [.missingManageRoles]) ++
    rolesToAdd.flatMap (fun p =>
      (if p.2.managed then [.managedRole p.1] else []) ++
        (if meHighestPosition ≤ p.2.position then [.aboveOrEqualBot p.1] else []))

/-- Best-effort removal of the not-verified role (part_000 lines 1396-1409). -/
def removeNotVerifiedEffects (config : GuildConfig) (env : ButtonEnv)
    (target : TargetMember) (targetUserId : String) : List Effect :=
  match config.notVerifiedRoleId with
  | some nv =>
    match env.roleCache nv with
    | some _ => if target.hasRole nv then [.removeRole targetUserId nv] else []
    | none => []
  | none => []

/-- The `assignset` branch (part_000 lines 1357-1380 and 1418-1477). -/
def assignsetBranch (config : GuildConfig) (env : ButtonEnv)
    (parts : List String) : List Effect :=
  let setIndex := parseNatStr (parts.getD 1 (""))
  let targetUserId := parts.getD 3 ("")
  match (getVerifyRoles config env.roleCache)[setIndex]? with
  | none => [.reply .buttonNotConfigured]
  | some vr =>
    match vr.roleIds with
    | none => [.reply .buttonNotConfigured]
    | some ids =>
      if ids = [] then [.reply .buttonNotConfigured]
      else
        match env.fetchMember targetUserId with
        | none => [.reply .userLeft]
        | some target =>
          let rolesToAdd := rolesFromCache env.roleCache ids
          if rolesToAdd = [] then [.reply .rolesGone]
          else
            let issues := assignIssues env.meHasManageRoles env.meHighestPosition rolesToAdd
            if issues = [] then
              [.addRoles targetUserId (rolesToAdd.map Prod.fst)] ++
                removeNotVerifiedEffects config env target targetUserId ++
                [.clearPrompt (.assigned (rolesToAdd.map Prod.fst) targetUserId env.clickerId),
                  .dmTarget targetUserId]
            else [.reply (.assignProblems issues)]

/-- The `deny` branch (part_000 lines 1381-1391 and 1479-1499). -/
def denyBranch (config : GuildConfig) (env : ButtonEnv)
    (parts : List String) : List Effect :=
  let messageId := parts.getD 1 ("")
  let targetUserId := parts.getD 2 ("")
  match env.fetchMember targetUserId with
  | none => [.reply .userLeft]
  | some _ =>
    (match config.verificationChannelId with
     | some vc =>
       match env.channels vc with
       | some ch =>
         if ch.isTextBased && ch.hasMessage messageId then [.deleteSubmission messageId]
         else []
       | none => []
     | none => []) ++
      [.clearPrompt (.denied targetUserId env.clickerId), .dmTarget targetUserId]

/-- The button part of the `InteractionCreate` handler (part_000 lines
1296-1500): no stored configuration means return; `help:` buttons skip the
moderator gate; other buttons pass the gate and dispatch on `parts[0]`. -/
def buttonHandler (store : String → Option GuildConfig) (guildId : String)
    (env : ButtonEnv) (customId : String) : List Effect :=
  match store guildId with
  | none => []
  | some config =>
    if strStartsWith customId ("help:") then helpBranch config env customId
    else if modGateBlocks config env then [.reply .notAllowed]
    else
      let parts := splitChar ':' customId
      match parts.getD 0 ("") with
      | "assignset" => assignsetBranch config env parts
      | "deny" => denyBranch config env parts
      | _ => []

/-! ## Codec lemmas -/

theorem splitOnChar_ne_nil (d : Char) (s : List Char) : splitOnChar d s ≠ [] := by
  induction s with
  | nil => simp [splitOnChar]
  | cons c rest ih =>
    rw [splitOnChar]
    cases h : splitOnChar d rest with
    | nil => exact absurd h ih
    | cons w ws =>
      by_cases hc : c = d <;> simp [hc]

theorem splitOnChar_of_not_mem {d : Char} {a : List Char} (h : d ∉ a) :
    splitOnChar d a = [a] := by
  induction a with
  | nil => rfl
  | cons c rest ih =>
    rw [List.mem_cons, not_or] at h
    rw [splitOnChar, ih h.2]
    dsimp only
    rw [if_neg (fun hcd : c = d => h.1 hcd.symm)]

theorem splitOnChar_append {d : Char} {a : List Char} (s : List Char) (h : d ∉ a) :
    splitOnChar d (a ++ d :: s) = a :: splitOnChar d s := by
  induction a with
  | nil =>
    rw [List.nil_append, splitOnChar]
    cases hs : splitOnChar d s with
    | nil => exact absurd hs (splitOnChar_ne_nil d s)
    | cons w ws =>
      dsimp only
      rw [if_pos rfl]
  | cons c rest ih =>
    rw [List.mem_cons, not_or] at h
    rw [List.cons_append, splitOnChar, ih h.2]
    dsimp only
    rw [if_neg (fun hcd : c = d => h.1 hcd.symm)]

theorem strData_append (a b : String) : (a ++ b).data = a.data ++ b.data := by
  cases a; cases b; rfl

theorem strMk_data (s : String) : String.mk s.data = s := by
  cases s; rfl

theorem charToDigit_digitChar {d : Nat} (h : d < 10) :
    charToDigit (Nat.digitChar d) = d := by
  interval_cases d <;> rfl

theorem digitChar_ne_colon {d : Nat} (h : d < 10) : Nat.digitChar d ≠ ':' := by
  interval_cases d <;> decide

theorem parseNatChars_append (cs : List Char) (c : Char) :
    parseNatChars (cs ++ [c]) = 10 * parseNatChars cs + charToDigit c := by
  simp [parseNatChars, List.foldl_append]

theorem parse_natCharsAux : ∀ fuel n, n < fuel →
    parseNatChars (natCharsAux fuel n) = n := by
  intro fuel
  induction fuel with
  | zero => intro n h; omega
  | succ f ih =>
    intro n h
    rw [natCharsAux]
    by_cases h10 : n < 10
    · rw [if_pos h10]
      simp [parseNatChars, List.foldl, charToDigit_digitChar h10]
    · rw [if_neg h10]
      have hdiv : n / 10 < n := Nat.div_lt_self (by omega) (by omega)
      rw [parseNatChars_append, ih (n / 10) (by omega),
        charToDigit_digitChar (Nat.mod_lt n (by omega))]
      omega

theorem parse_natChars (n : Nat) : parseNatChars (natChars n) = n :=
  parse_natCharsAux (n + 1) n (Nat.lt_succ_self n)

theorem parseNatStr_natStr (n : Nat) : parseNatStr (natStr n) = n :=
  parse_natChars n

theorem colon_not_mem_natCharsAux : ∀ fuel n, ':' ∉ natCharsAux fuel n := by
  intro fuel
  induction fuel with
  | zero => intro n; simp [natCharsAux]
  | succ f ih =>
    intro n
    rw [natCharsAux]
    by_cases h10 : n < 10
    · rw [if_pos h10]
      simp [(digitChar_ne_colon h10).symm]
    · rw [if_neg h10]
      intro hmem
      rcases List.mem_append.mp hmem with hl | hr
      · exact ih (n / 10) hl
      · rw [List.mem_singleton] at hr
        exact digitChar_ne_colon (Nat.mod_lt n (by omega)) hr.symm

theorem colon_not_mem_natChars (n : Nat) : ':' ∉ natChars n :=
  colon_not_mem_natCharsAux (n + 1) n

theorem natStr_data (n : Nat) : (natStr n).data = natChars n := rfl

theorem isPrefixOf_append_self (l t : List Char) : l.isPrefixOf (l ++ t) = true := by
  induction l with
  | nil => simp
  | cons c rest ih => simp [List.isPrefixOf_cons₂, ih]

theorem encodeAssignset_data (idx : Nat) (mid uid : String) :
    (encodeAssignset idx mid uid).data =
      "assignset".data ++ ':' :: (natChars idx ++ ':' :: (mid.data ++ ':' :: uid.data)) := by
  simp only [encodeAssignset, strData_append, natStr_data]
  simp [List.cons_append]

theorem encodeDeny_data (mid uid : String) :
    (encodeDeny mid uid).data = "deny".data ++ ':' :: (mid.data ++ ':' :: uid.data) := by
  simp only [encodeDeny, strData_append]
  simp [List.cons_append]

theorem encodeHelp_data (uid : String) :
    (encodeHelp uid).data = "help".data ++ ':' :: uid.data := by
  simp only [encodeHelp, strData_append]
  simp [List.cons_append]

theorem splitChar_encodeAssignset (idx : Nat) {mid uid : String}
    (hm : ':' ∉ mid.data) (hu : ':' ∉ uid.data) :
    splitChar ':' (encodeAssignset idx mid uid) = ["assignset", natStr idx, mid, uid] := by
  rw [splitChar, encodeAssignset_data,
    splitOnChar_append _ (by decide),
    splitOnChar_append _ (colon_not_mem_natChars idx),
    splitOnChar_append _ hm,
    splitOnChar_of_not_mem hu,
    List.map_cons, List.map_cons, List.map_cons, List.map_cons, List.map_nil,
    strMk_data ("assignset"), strMk_data mid, strMk_data uid]
  rfl

theorem splitChar_encodeDeny {mid uid : String}
    (hm : ':' ∉ mid.data) (hu : ':' ∉ uid.data) :
    splitChar ':' (encodeDeny mid uid) = ["deny", mid, uid] := by
  rw [splitChar, encodeDeny_data,
    splitOnChar_append _ (by decide),
    splitOnChar_append _ hm,
    splitOnChar_of_not_mem hu,
    List.map_cons, List.map_cons, List.map_cons, List.map_nil,
    strMk_data, strMk_data, strMk_data]

theorem splitChar_encodeHelp {uid : String} (hu : ':' ∉ uid.data) :
    splitChar ':' (encodeHelp uid) = ["help", uid] := by
  rw [splitChar, encodeHelp_data,
    splitOnChar_append _ (by decide),
    splitOnChar_of_not_mem hu,
    List.map_cons, List.map_cons, List.map_nil,
    strMk_data, strMk_data]

theorem encodeHelp_startsWith_help (uid : String) :
    strStartsWith (encodeHelp uid) ("help:") = true := by
  rw [strStartsWith, encodeHelp]
  rw [strData_append]
  exact isPrefixOf_append_self _ _

theorem encodeAssignset_not_help (idx : Nat) (mid uid : String) :
    strStartsWith (encodeAssignset idx mid uid) ("help:") = false := by
  rw [strStartsWith, encodeAssignset_data]
  have e : ("help:").data = 'h' :: ['e', 'l', 'p', ':'] := by decide
  have e2 : ("assignset").data = 'a' :: ['s', 's', 'i', 'g', 'n', 's', 'e', 't'] := by decide
  rw [e, e2]
  simp [List.isPrefixOf_cons₂]

theorem encodeDeny_not_help (mid uid : String) :
    strStartsWith (encodeDeny mid uid) ("help:") = false := by
  rw [strStartsWith, encodeDeny_data]
  have e : ("help:").data = 'h' :: ['e', 'l', 'p', ':'] := by decide
  have e2 : ("deny").data = 'd' :: ['e', 'n', 'y'] := by decide
  rw [e, e2]
  simp [List.isPrefixOf_cons₂]

/-! ## Claim theorems -/

/-- C1: for every action kind (`assignset` with a role-set index, `deny`,
and `help`), splitting the colon-delimited `customId` built at
prompt-creation time yields back the same action tag, role-set index (for
`assignset`), source message id, and target user id that were encoded,
provided the interpolated ids contain no colon (platform ids are decimal
digit strings). -/
theorem codec_round_trip (idx : Nat) (mid uid hid : String)
    (hm : ':' ∉ mid.data) (hu : ':' ∉ uid.data) (hh : ':' ∉ hid.data) :
    decodeCustomId (encodeAssignset idx mid uid) = .assignset idx mid uid ∧
    decodeCustomId (encodeDeny mid uid) = .deny mid uid ∧
    decodeCustomId (encodeHelp hid) = .help hid := by
  refine ⟨?_, ?_, ?_⟩
  · simp [decodeCustomId, encodeAssignset_not_help,
      splitChar_encodeAssignset idx hm hu, parseNatStr_natStr]
  · simp [decodeCustomId, encodeDeny_not_help, splitChar_encodeDeny hm hu]
  · simp [decodeCustomId, encodeHelp_startsWith_help, splitChar_encodeHelp hh]

theorem codec_round_trip_witness :
    decodeCustomId (encodeAssignset 7 ("111") ("222")) = .assignset 7 ("111") ("222") ∧
    decodeCustomId (encodeDeny ("111") ("222")) = .deny ("111") ("222") ∧
    decodeCustomId (encodeHelp ("333")) = .help ("333") :=
  codec_round_trip 7 ("111") ("222") ("333") (by decide) (by decide) (by decide)

/-- C2, counterexample to the claim as stated: the duplicate test compares
lengths and containment, not sets. With an existing entry `[X, X]` the new
entry `[X, Y]` is refused even though its role-id set differs from the
role-id set of every existing entry. -/
theorem verifyrole_add_duplicate_not_set_iff :
    duplicateExists [⟨some ["X", "X"], none, some ("L")⟩] ["X", "Y"] = true ∧
    ("Y" : String) ∈ (["X", "Y"] : List String) ∧
    ("Y" : String) ∉ (["X", "X"] : List String) := by
  decide

/-- C2, amended: for entries whose `roleIds` lists carry no repeated id
(which holds whenever the up-to-three selected roles are pairwise distinct),
the `verifyrole_add` duplicate test refuses the new entry exactly when some
existing entry has the same role-id set regardless of order. -/
theorem verifyrole_add_duplicate_iff_set_eq (existing : List VerifyEntry)
    (newIds : List String) (hnew : newIds.Nodup)
    (hex : ∀ vr ∈ existing, (vr.roleIds.getD []).Nodup) :
    duplicateExists existing newIds = true ↔
      ∃ vr ∈ existing, ∃ ids, vr.roleIds = some ids ∧ ids.toFinset = newIds.toFinset := by
  unfold duplicateExists
  rw [List.any_eq_true]
  constructor
  · rintro ⟨vr, hmem, hvr⟩
    refine ⟨vr, hmem, ?_⟩
    cases hids : vr.roleIds with
    | none => rw [hids] at hvr; simp at hvr
    | some ids =>
      rw [hids] at hvr
      dsimp only at hvr
      rw [Bool.and_eq_true] at hvr
      obtain ⟨hlen, hall⟩ := hvr
      have hlen2 : ids.length = newIds.length := by simpa using hlen
      have hsub : ∀ i ∈ ids, i ∈ newIds := by
        intro i hi
        have h2 := List.all_eq_true.mp hall i hi
        simpa using h2
      have hnods : ids.Nodup := by
        have h3 := hex vr hmem
        rw [hids] at h3
        simpa using h3
      refine ⟨ids, rfl, ?_⟩
      apply Finset.eq_of_subset_of_card_le
      · intro x hx
        rw [List.mem_toFinset] at hx ⊢
        exact hsub x hx
      · rw [List.toFinset_card_of_nodup hnew, List.toFinset_card_of_nodup hnods]
        exact Nat.le_of_eq hlen2.symm
  · rintro ⟨vr, hmem, ids, hids, hfin⟩
    refine ⟨vr, hmem, ?_⟩
    rw [hids]
    dsimp only
    rw [Bool.and_eq_true]
    have hnods : ids.Nodup := by
      have h3 := hex vr hmem
      rw [hids] at h3
      simpa using h3
    constructor
    · have hlen : ids.length = newIds.length := by
        rw [← List.toFinset_card_of_nodup hnods, ← List.toFinset_card_of_nodup hnew, hfin]
      simp [hlen]
    · rw [List.all_eq_true]
      intro i hi
      have h4 : i ∈ newIds := by
        rw [← List.mem_toFinset, ← hfin, List.mem_toFinset]
        exact hi
      simpa using h4

theorem verifyrole_add_duplicate_iff_witness :
    (duplicateExists [⟨some ["X", "Y"], none, some ("L")⟩] ["Y", "X"] = true ↔
      ∃ vr ∈ [(⟨some ["X", "Y"], none, some ("L")⟩ : VerifyEntry)],
        ∃ ids, vr.roleIds = some ids ∧
          ids.toFinset = (["Y", "X"] : List String).toFinset) :=
  verifyrole_add_duplicate_iff_set_eq _ _ (by decide) (by decide)

/-- C3: two successive `updateGuildConfig` calls on the same guild merge
field-wise; the resulting stored record keeps every field of the first
partial record not overridden by the second together with every field of
the second. -/
theorem update_guild_config_merges (s : SettingsStore) (g : String)
    (p1 p2 : FieldMap) (f v : String) :
    (p2 f = some v →
      ∃ c, updateGuildConfig (updateGuildConfig s g p1) g p2 g = some c ∧ c f = some v) ∧
    (p2 f = none → p1 f = some v →
      ∃ c, updateGuildConfig (updateGuildConfig s g p1) g p2 g = some c ∧ c f = some v) := by
  constructor
  · intro h2
    refine ⟨spreadMerge (spreadMerge ((s g).getD (fun _ => none)) p1) p2, ?_, ?_⟩
    · simp [updateGuildConfig]
    · simp [spreadMerge, h2, Option.orElse]
  · intro h2 h1
    refine ⟨spreadMerge (spreadMerge ((s g).getD (fun _ => none)) p1) p2, ?_, ?_⟩
    · simp [updateGuildConfig]
    · simp [spreadMerge, h2, h1, Option.orElse]

theorem update_guild_config_merges_witness :
    (∃ c, updateGuildConfig (updateGuildConfig (fun _ => none) ("g")
        (fun f => if f = "a" then some ("1") else none)) ("g")
        (fun f => if f = "b" then some ("2") else none) ("g") = some c ∧
        c ("b") = some ("2")) ∧
    (∃ c, updateGuildConfig (updateGuildConfig (fun _ => none) ("g")
        (fun f => if f = "a" then some ("1") else none)) ("g")
        (fun f => if f = "b" then some ("2") else none) ("g") = some c ∧
        c ("a") = some ("1")) :=
  ⟨(update_guild_config_merges (fun _ => none) ("g") _ _ ("b") ("2")).1 (by decide),
   (update_guild_config_merges (fun _ => none) ("g") _ _ ("a") ("1")).2 (by decide) (by decide)⟩

/-- C4: after `markPosted g u t`, a welcome for `(g, u, t)` is suppressed
while a welcome for any other timestamp `t2` is allowed, and in general a
welcome is suppressed exactly when the recorded timestamp for `(g, u)`
equals the current join timestamp. -/
theorem welcome_dedup_timestamp (m : WelcomeMap) (g u : String) (t t2 : Nat)
    (hne : t2 ≠ t) :
    shouldPost (markPosted m g u t) g u t = false ∧
    shouldPost (markPosted m g u t) g u t2 = true ∧
    (∀ (m2 : WelcomeMap) (t3 : Nat),
      shouldPost m2 g u t3 = false ↔ m2 (welcomeKey g u) = some t3) := by
  refine ⟨?_, ?_, ?_⟩
  · simp [shouldPost, markPosted]
  · simp [shouldPost, markPosted, Ne.symm hne]
  · intro m2 t3
    by_cases hp : m2 (welcomeKey g u) = some t3 <;> simp [shouldPost, hp]

theorem welcome_dedup_timestamp_witness :
    shouldPost (markPosted (fun _ => none) ("g") ("u") 1) ("g") ("u") 1 = false ∧
    shouldPost (markPosted (fun _ => none) ("g") ("u") 1) ("g") ("u") 2 = true :=
  ⟨(welcome_dedup_timestamp (fun _ => none) ("g") ("u") 1 2 (by decide)).1,
   (welcome_dedup_timestamp (fun _ => none) ("g") ("u") 1 2 (by decide)).2.1⟩

/-- C9: an update for guild `g` leaves the stored configuration of every
other guild `g2` unchanged. -/
theorem update_guild_config_keyed_isolation (s : SettingsStore) (g g2 : String)
    (p : FieldMap) (h : g2 ≠ g) :
    updateGuildConfig s g p g2 = s g2 := by
  unfold updateGuildConfig
  rw [if_neg h]

theorem update_guild_config_keyed_isolation_witness :
    updateGuildConfig (fun _ => none) ("1") (fun _ => none) ("2") = none :=
  update_guild_config_keyed_isolation (fun _ => none) ("1") ("2") (fun _ => none) (by decide)

/-- C5, counterexample to the claim as stated: with a non-empty
`verifyRoles`, `getVerifyRoles` maps every entry through a normalisation
step, so a legacy entry `{ roleId: X, label: L }` is returned as
`{ roleIds: [X], label: L }`, not verbatim. -/
theorem get_verify_roles_not_verbatim :
    ({ verifyRoles := some [⟨none, some ("X"), some ("L")⟩] } : GuildConfig).verifyRoles
        = some [⟨none, some ("X"), some ("L")⟩] ∧
    getVerifyRoles { verifyRoles := some [⟨none, some ("X"), some ("L")⟩] }
        (fun _ => none) ≠ [⟨none, some ("X"), some ("L")⟩] := by
  decide

/-- C5, amended: with a non-empty `verifyRoles` the resolver returns the
sequence entry-wise normalised in the same order (entries already carrying a
non-empty `roleIds` and no legacy `roleId` field are returned verbatim);
with an empty or absent `verifyRoles` it synthesizes up to two single-role
entries from `roleAId` and `roleBId`, always `roleAId` first; and the output
is deterministic in the configuration and the live role lookup. -/
theorem get_verify_roles_resolution :
    (∀ (config : GuildConfig) (cache : String → Option Role) (l : List VerifyEntry),
      config.verifyRoles = some l → l ≠ [] →
      getVerifyRoles config cache = l.map normalizeVerifyEntry) ∧
    (∀ (vr : VerifyEntry) (ids : List String),
      vr.roleIds = some ids → ids ≠ [] → vr.roleId = none →
      normalizeVerifyEntry vr = vr) ∧
    (∀ (config : GuildConfig) (cache : String → Option Role),
      config.verifyRoles = none ∨ config.verifyRoles = some [] →
      getVerifyRoles config cache = legacyFallback config cache) ∧
    (∀ (config : GuildConfig) (cache : String → Option Role) (a b : String),
      config.roleAId = some a → config.roleBId = some b →
      legacyFallback config cache =
        [⟨some [a], none,
          some (match cache a with
                | some r => "✅ Verify: " ++ r.name
                | none => "✅ Verify: Role A")⟩,
         ⟨some [b], none,
          some (match cache b with
                | some r => "✅ Verify: " ++ r.name
                | none => "✅ Verify: Role B")⟩]) ∧
    (∀ (config : GuildConfig) (cache : String → Option Role),
      getVerifyRoles config cache = getVerifyRoles config cache) := by
  refine ⟨?_, ?_, ?_, ?_, fun _ _ => rfl⟩
  · intro config cache l hvr hne
    rw [getVerifyRoles, hvr]
    dsimp only
    rw [if_pos hne]
  · intro vr ids hids hne hrid
    obtain ⟨a, b, c⟩ := vr
    simp only at hids hrid
    subst hids
    subst hrid
    rw [normalizeVerifyEntry]
    dsimp only
    rw [if_pos hne]
  · intro config cache h
    rcases h with h | h <;> rw [getVerifyRoles, h]
    dsimp only
    rw [if_neg (by simp)]
  · intro config cache a b ha hb
    rw [legacyFallback, ha, hb]
    dsimp only
    rw [List.singleton_append]

theorem get_verify_roles_resolution_witness :
    getVerifyRoles { verifyRoles := some [⟨some ["R"], none, some ("L")⟩] }
        (fun _ => none)
      = ([⟨some ["R"], none, some ("L")⟩] : List VerifyEntry).map normalizeVerifyEntry ∧
    legacyFallback { roleAId := some ("A"), roleBId := some ("B") } (fun _ => none)
      = [⟨some ["A"], none, some ("✅ Verify: Role A")⟩,
         ⟨some ["B"], none, some ("✅ Verify: Role B")⟩] := by
  constructor
  · exact get_verify_roles_resolution.1 _ (fun _ => none) _ rfl (by decide)
  · exact get_verify_roles_resolution.2.2.2.1
      { roleAId := some ("A"), roleBId := some ("B") } (fun _ => none) ("A") ("B") rfl rfl

/-- C8: for a guild with no stored configuration, the member-join handler,
the message handler and the button-click handler each return without
emitting any effect. -/
theorem no_config_handlers_silent (store : String → Option GuildConfig)
    (g memberId : String) (rc : String → Option Role)
    (menv : MessageEnv) (benv : ButtonEnv) (cid : String)
    (h : store g = none) (hmg : menv.guildId = some g) :
    joinHandler store g memberId rc = [] ∧
    messageHandler store menv = [] ∧
    buttonHandler store g benv cid = [] := by
  refine ⟨?_, ?_, ?_⟩
  · rw [joinHandler, h]
  · rw [messageHandler, hmg]
    dsimp only
    by_cases hb : menv.authorIsBot
    · rw [if_pos hb]
    · rw [if_neg hb, h]
  · rw [buttonHandler, h]

/-- Witness environment for a message event in an unconfigured guild. -/
def wMessageEnv : MessageEnv :=
  ⟨some ("g"), false, "chan", "msg", "author", [], fun _ => none, fun _ => none⟩

/-- Witness environment for a button click in an unconfigured guild. -/
def wButtonEnv : ButtonEnv :=
  ⟨fun _ => none, true, 0, "clicker", fun _ => false, false, fun _ => none, fun _ => none⟩

theorem no_config_handlers_silent_witness :
    joinHandler (fun _ => none) ("g") ("member") (fun _ => none) = [] ∧
    messageHandler (fun _ => none) wMessageEnv = [] ∧
    buttonHandler (fun _ => none) ("g") wButtonEnv ("deny:1:2") = [] :=
  no_config_handlers_silent (fun _ => none) ("g") ("member") (fun _ => none)
    wMessageEnv wButtonEnv ("deny:1:2") rfl rfl

/-- C7: for an `assignset` or `deny` button click in a guild whose
configuration sets `modRoleId`, a clicker holding neither the moderator role
nor ManageRoles gets exactly one ephemeral not-allowed reply and no other
effect. -/
theorem mod_gate_rejects_without_mutation (store : String → Option GuildConfig)
    (g : String) (benv : ButtonEnv) (customId : String)
    (config : GuildConfig) (m : String)
    (hc : store g = some config) (hmr : config.modRoleId = some m)
    (h1 : benv.clickerHasRole m = false) (h2 : benv.clickerHasManageRoles = false)
    (hid : (∃ idx mid uid, customId = encodeAssignset idx mid uid) ∨
      (∃ mid uid, customId = encodeDeny mid uid)) :
    buttonHandler store g benv customId = [Effect.reply Reply.notAllowed] := by
  have hnh : strStartsWith customId ("help:") = false := by
    rcases hid with ⟨idx, mid, uid, rfl⟩ | ⟨mid, uid, rfl⟩
    · exact encodeAssignset_not_help idx mid uid
    · exact encodeDeny_not_help mid uid
  have hgate : modGateBlocks config benv = true := by
    simp [modGateBlocks, hmr, h1, h2]
  rw [buttonHandler, hc]
  dsimp only
  rw [hnh, hgate]
  simp

/-- Witness configuration with a moderator role set. -/
def wModConfig : GuildConfig := { modRoleId := some ("M") }

theorem mod_gate_rejects_witness :
    buttonHandler (fun _ => some wModConfig) ("g") wButtonEnv (encodeDeny ("1") ("2"))
      = [Effect.reply Reply.notAllowed] :=
  mod_gate_rejects_without_mutation (fun _ => some wModConfig) ("g") wButtonEnv
    (encodeDeny ("1") ("2")) wModConfig ("M") rfl rfl rfl rfl
    (Or.inr ⟨"1", "2", rfl⟩)

/-- C10: a help-button click in a configured guild always gets the ephemeral
success acknowledgment, also when `staffChannelId` is unset, the staff
channel cannot be fetched, or the staff channel is not text based. -/
theorem help_ack_unconditional (store : String → Option GuildConfig)
    (g : String) (benv : ButtonEnv) (customId : String) (config : GuildConfig)
    (hc : store g = some config)
    (hh : strStartsWith customId ("help:") = true) :
    Effect.reply Reply.helpAck ∈ buttonHandler store g benv customId ∧
    (config.staffChannelId = none →
      buttonHandler store g benv customId = [Effect.reply Reply.helpAck]) ∧
    (∀ sid, config.staffChannelId = some sid → benv.channels sid = none →
      buttonHandler store g benv customId = [Effect.reply Reply.helpAck]) ∧
    (∀ sid ch, config.staffChannelId = some sid → benv.channels sid = some ch →
      ch.isTextBased = false →
      buttonHandler store g benv customId = [Effect.reply Reply.helpAck]) := by
  have hb : buttonHandler store g benv customId = helpBranch config benv customId := by
    rw [buttonHandler, hc]
    dsimp only
    rw [hh]
    simp
  refine ⟨?_, ?_, ?_, ?_⟩
  · rw [hb, helpBranch]
    simp
  · intro hn
    rw [hb, helpBranch, hn]
    simp
  · intro sid hs hcn
    rw [hb, helpBranch, hs]
    dsimp only
    rw [hcn]
    simp
  · intro sid ch hs hcs hnt
    rw [hb, helpBranch, hs]
    dsimp only
    rw [hcs]
    dsimp only
    rw [hnt]
    simp

theorem help_ack_unconditional_witness :
    Effect.reply Reply.helpAck ∈
      buttonHandler (fun _ => some {}) ("g") wButtonEnv (encodeHelp ("u")) ∧
    buttonHandler (fun _ => some {}) ("g") wButtonEnv (encodeHelp ("u"))
      = [Effect.reply Reply.helpAck] :=
  ⟨(help_ack_unconditional (fun _ => some {}) ("g") wButtonEnv (encodeHelp ("u")) {}
      rfl (encodeHelp_startsWith_help ("u"))).1,
   (help_ack_unconditional (fun _ => some {}) ("g") wButtonEnv (encodeHelp ("u")) {}
      rfl (encodeHelp_startsWith_help ("u"))).2.1 rfl⟩

/-- C6: on an `assignset` click, when any cached target role of the resolved
role set is platform managed or sits at or above the highest bot role
position, the handler emits exactly one ephemeral reply whose issue list
names every violating role, and emits no role addition at all. -/
theorem assignset_hierarchy_all_or_nothing
    (store : String → Option GuildConfig) (g : String) (benv : ButtonEnv)
    (idx : Nat) (mid uid : String) (config : GuildConfig) (vr : VerifyEntry)
    (ids : List String) (target : TargetMember)
    (hm : ':' ∉ mid.data) (hu : ':' ∉ uid.data)
    (hc : store g = some config)
    (hgate : modGateBlocks config benv = false)
    (hvr : (getVerifyRoles config benv.roleCache)[idx]? = some vr)
    (hids : vr.roleIds = some ids)
    (htgt : benv.fetchMember uid = some target)
    (hviol : ∃ p ∈ rolesFromCache benv.roleCache ids,
      p.2.managed = true ∨ benv.meHighestPosition ≤ p.2.position) :
    buttonHandler store g benv (encodeAssignset idx mid uid) =
      [Effect.reply (Reply.assignProblems
        (assignIssues benv.meHasManageRoles benv.meHighestPosition
          (rolesFromCache benv.roleCache ids)))] ∧
    (∀ i r, (i, r) ∈ rolesFromCache benv.roleCache ids → r.managed = true →
      AssignIssue.managedRole i ∈
        assignIssues benv.meHasManageRoles benv.meHighestPosition
          (rolesFromCache benv.roleCache ids)) ∧
    (∀ i r, (i, r) ∈ rolesFromCache benv.roleCache ids →
      benv.meHighestPosition ≤ r.position →
      AssignIssue.aboveOrEqualBot i ∈
        assignIssues benv.meHasManageRoles benv.meHighestPosition
          (rolesFromCache benv.roleCache ids)) ∧
    (∀ e ∈ buttonHandler store g benv (encodeAssignset idx mid uid),
      ∀ u rs, e ≠ Effect.addRoles u rs) := by
  have hman : ∀ i r, (i, r) ∈ rolesFromCache benv.roleCache ids → r.managed = true →
      AssignIssue.managedRole i ∈
        assignIssues benv.meHasManageRoles benv.meHighestPosition
          (rolesFromCache benv.roleCache ids) := by
    intro i r hmem hmg
    rw [assignIssues]
    apply List.mem_append_right
    rw [List.mem_flatMap]
    refine ⟨(i, r), hmem, ?_⟩
    simp [hmg]
  have hpos : ∀ i r, (i, r) ∈ rolesFromCache benv.roleCache ids →
      benv.meHighestPosition ≤ r.position →
      AssignIssue.aboveOrEqualBot i ∈
        assignIssues benv.meHasManageRoles benv.meHighestPosition
          (rolesFromCache benv.roleCache ids) := by
    intro i r hmem hle
    rw [assignIssues]
    apply List.mem_append_right
    rw [List.mem_flatMap]
    refine ⟨(i, r), hmem, ?_⟩
    apply List.mem_append_right
    simp [hle]
  have hissne : assignIssues benv.meHasManageRoles benv.meHighestPosition
      (rolesFromCache benv.roleCache ids) ≠ [] := by
    obtain ⟨p, hmem, hv⟩ := hviol
    rcases hv with hmg | hle
    · exact List.ne_nil_of_mem (hman p.1 p.2 (by simpa using hmem) hmg)
    · exact List.ne_nil_of_mem (hpos p.1 p.2 (by simpa using hmem) hle)
  have hrne : rolesFromCache benv.roleCache ids ≠ [] := by
    obtain ⟨p, hmem, _⟩ := hviol
    exact List.ne_nil_of_mem hmem
  have hidsne : ids ≠ [] := by
    intro h0
    rw [h0] at hrne
    exact hrne rfl
  have hmain : buttonHandler store g benv (encodeAssignset idx mid uid) =
      [Effect.reply (Reply.assignProblems
        (assignIssues benv.meHasManageRoles benv.meHighestPosition
          (rolesFromCache benv.roleCache ids)))] := by
    rw [buttonHandler, hc]
    dsimp only
    rw [encodeAssignset_not_help]
    simp only [Bool.false_eq_true, if_false, hgate]
    simp only [splitChar_encodeAssignset idx hm hu]
    simp only [List.getD_cons_zero, List.getD_cons_succ]
    rw [assignsetBranch]
    simp only [List.getD_cons_zero, List.getD_cons_succ, parseNatStr_natStr]
    rw [hvr]
    dsimp only
    rw [hids]
    dsimp only
    rw [if_neg hidsne, htgt]
    dsimp only
    rw [if_neg hrne, if_neg hissne]
  refine ⟨hmain, hman, hpos, ?_⟩
  intro e he u rs
  rw [hmain] at he
  rw [List.mem_singleton] at he
  subst he
  simp

/-- Witness role cache: `R1` sits below the bot, `R2` above it. -/
def wCache6 : String → Option Role := fun i =>
  if i = "R1" then some ⟨"Role One", 5, false⟩
  else if i = "R2" then some ⟨"Role Two", 99, false⟩
  else none

/-- Witness configuration with one two-role verification button. -/
def wConfig6 : GuildConfig :=
  { verifyRoles := some [⟨some ["R1", "R2"], none, some ("Vet")⟩] }

/-- Witness click environment: moderator gate open, bot highest position 10. -/
def wBenv6 : ButtonEnv :=
  ⟨wCache6, true, 10, "mod", fun _ => false, true,
    fun _ => some ⟨fun _ => false⟩, fun _ => none⟩

theorem assignset_hierarchy_witness :
    buttonHandler (fun _ => some wConfig6) ("G") wBenv6
        (encodeAssignset 0 ("MSG") ("U")) =
      [Effect.reply (Reply.assignProblems
        (assignIssues wBenv6.meHasManageRoles wBenv6.meHighestPosition
          (rolesFromCache wBenv6.roleCache ["R1", "R2"])))] :=
  (assignset_hierarchy_all_or_nothing (fun _ => some wConfig6) ("G") wBenv6
    0 ("MSG") ("U") wConfig6 ⟨some ["R1", "R2"], none, some ("Vet")⟩
    ["R1", "R2"] ⟨fun _ => false⟩
    (by decide) (by decide) rfl (by decide) (by decide) rfl rfl (by decide)).1
